import Mathlib

/-!
# Verification of the dealership-inventory extraction pipeline (`main.py`)

A shallow embedding of the multi-strategy field-extraction engine of the
scraping service: value normalizers (`norm_km`, the money / color / stock
fragment handling), the label-proximity scanner `_find_labeled_value_in`,
the JSON-LD merge, the dedicated regular-expression passes, the record
assembler `enrich_vehicle`, and the candidate-URL filter `keep` of
`inventory_search`.

Python strings are modelled as `String` / `List Char`; machine text is ASCII
in every scenario considered.  Fallible statements (`float(...)`,
list indexing, use of a possibly-unbound local) are modelled with
`Except String`, mirroring the `try/except` at the per-record boundary of
`enrich_vehicle`.  Each regular-expression `search`/`sub` used by the code is
embedded as an executable leftmost-match scanner derived character class by
character class from the pattern literal in the source; the derivations note
where greedy/lazy quantifier behaviour is deterministic and where
backtracking is required and implemented.
-/

namespace TokenServer

deriving instance DecidableEq for Except

/-! ## Basic string machinery (Python `str` semantics) -/

/-- `lstarts pat s`: `pat` is a prefix of `s` (case-sensitive). -/
def lstarts : List Char → List Char → Bool
  | [], _ => true
  | _ :: _, [] => false
  | a :: p, b :: s => a = b && lstarts p s

/-- `lcontains s pat`: Python `pat in s` (substring test, case-sensitive). -/
def lcontains : List Char → List Char → Bool
  | [], pat => pat.isEmpty
  | s@(_ :: t), pat => lstarts pat s || lcontains t pat

/-- Lower-case a character list (ASCII, as in Python `str.lower` on this data). -/
def lowerL (s : List Char) : List Char := s.map Char.toLower

/-- `startsCI pat s`: the lowercase literal `pat` is a case-insensitive prefix
of `s` (used for the `re.I` literal fragments of the source patterns). -/
def startsCI (pat : String) (s : List Char) : Bool :=
  lstarts pat.toList (lowerL s)

/-- `containsCI s pat`: Python `pat in s.lower()` for a lowercase literal `pat`. -/
def containsCI (s : String) (pat : String) : Bool :=
  lcontains (lowerL s.toList) pat.toList

/-- Python regex `\s` / `str.strip` whitespace class. -/
def pySpace (c : Char) : Bool :=
  c = ' ' || c = '\t' || c = '\n' || c = '\r' || c = Char.ofNat 11 || c = Char.ofNat 12

/-- Python word character for `\b` boundaries (`[A-Za-z0-9_]` on ASCII data). -/
def isWordChar (c : Char) : Bool := c.isAlpha || c.isDigit || c = '_'

/-- `\b` holds before the match when the previous character (if any) is not a
word character; the scanners below carry the previous character along. -/
def prevOk : Option Char → Bool
  | none => true
  | some c => ¬ isWordChar c

/-- `\b` after the last (word) character of a match: end of input or a
non-word character follows. -/
def afterOk : List Char → Bool
  | [] => true
  | c :: _ => ¬ isWordChar c

/-- Python `str.strip()`. -/
def pyStrip (s : List Char) : List Char :=
  ((s.dropWhile pySpace).reverse.dropWhile pySpace).reverse

/-- Python `str.strip()` on `String`. -/
def pyStripS (s : String) : String := String.mk (pyStrip s.toList)

/-- Whitespace-run collapsing used by `_clean_text` (`re.sub(r"\s+", " ", ·)`);
the flag records whether the previous character was part of a whitespace run. -/
def collapseWs : List Char → Bool → List Char
  | [], _ => []
  | c :: rest, prevSp =>
    if pySpace c then
      (if prevSp then collapseWs rest true else ' ' :: collapseWs rest true)
    else c :: collapseWs rest false

/-- `_clean_text(t)` from the source: `re.sub(r"\s+", " ", (t or "").strip())`. -/
def cleanTextL (s : List Char) : List Char := collapseWs (pyStrip s) false

/-- `_clean_text` on `String`. -/
def cleanText (s : String) : String := String.mk (cleanTextL s.toList)

/-- Python `str.split()` (split on whitespace runs, no empty parts);
`acc` is the current word, reversed. -/
def wordsAux : List Char → List Char → List (List Char)
  | [], acc => if acc.isEmpty then [] else [acc.reverse]
  | c :: rest, acc =>
    if pySpace c then
      (if acc.isEmpty then wordsAux rest [] else acc.reverse :: wordsAux rest [])
    else wordsAux rest (c :: acc)

/-- Python `str.split()`. -/
def pyWords (s : List Char) : List (List Char) := wordsAux s []

/-- Python `str.title()`: upper-case each cased character that follows a
non-cased character, lower-case the rest (ASCII data). -/
def pyTitleAux : List Char → Bool → List Char
  | [], _ => []
  | c :: rest, prevAlpha =>
    if c.isAlpha then
      (if prevAlpha then c.toLower else c.toUpper) :: pyTitleAux rest true
    else c :: pyTitleAux rest false

/-- Python `str.title()`. -/
def pyTitle (s : List Char) : List Char := pyTitleAux s false

/-- Python `str.isdigit()` (ASCII): non-empty and all digits. -/
def pyIsDigit (s : List Char) : Bool := ¬ s.isEmpty && s.all Char.isDigit

/-- Python truthiness `x or y` for `Optional[str]` values (`None` and `""` are
falsy). -/
def pyOrS : Option String → Option String → Option String
  | some s, b => if s = "" then b else some s
  | none, b => b

/-- Python truthiness `x or y` for `Optional[int]` values (`None` and `0` are
falsy). -/
def pyOrI : Option Int → Option Int → Option Int
  | some n, b => if n = 0 then b else some n
  | none, b => b

/-- Python `not x` for an `Optional[str]` (`None` and `""` are falsy). -/
def pyNotS : Option String → Bool
  | none => true
  | some s => s = ""

/-- `str.replace(",,", ",")`: left-to-right non-overlapping replacement. -/
def replDD : List Char → List Char
  | ',' :: ',' :: rest => ',' :: replDD rest
  | c :: rest => c :: replDD rest
  | [] => []

/-- Decimal digit run to a natural number. -/
def natOfDigits (s : List Char) : Nat :=
  s.foldl (fun a c => a * 10 + (c.toNat - 48)) 0

/-! ## `norm_km` (the `parseDistance` normalizer, `main.py` lines 65-68)

```python
def norm_km(txt):
    if not txt: return None
    m = re.search(r"([\d,\.]+)\s*(?:km|kilometres?|kilometers?)", txt, re.I)
    return int(float(m.group(1).replace(",", ""))) if m else None
```
The same pattern is `ODO_RX` (line 32), used against the full page text.
-/

/-- Character class `[\d,\.]` of the odometer pattern. -/
def numCh (c : Char) : Bool := c.isDigit || c = ',' || c = '.'

/-- The unit alternation `(?:km|kilometres?|kilometers?)` with `re.I`: the
remaining text starts (case-insensitively) with one of the unit stems.  The
optional trailing `s` never affects matchability. -/
def startsKmUnit (s : List Char) : Bool :=
  startsCI "km" s || startsCI "kilometre" s || startsCI "kilometer" s

/-- Attempt the odometer pattern at the current position.  The numeric run,
the whitespace run and the unit literal use pairwise disjoint character
classes, so the greedy quantifiers are deterministic maximal munch. -/
def kmAt (s : List Char) : Option (List Char) :=
  let run := s.takeWhile numCh
  if run.isEmpty then none
  else if startsKmUnit ((s.dropWhile numCh).dropWhile pySpace) then some run
  else none

/-- Generic leftmost-match scanner: try the position matcher at every suffix,
left to right (the semantics of `re.search`). -/
def scanOpt {α : Type} (f : List Char → Option α) : List Char → Option α
  | [] => f []
  | s@(_ :: rest) =>
    match f s with
    | some r => some r
    | none => scanOpt f rest

/-- `ODO_RX.search` / the `norm_km` search: leftmost numeric run immediately
followed (possibly after whitespace) by a distance unit; yields `group(1)`. -/
def kmSearch (s : List Char) : Option (List Char) := scanOpt kmAt s

/-- Python `int(float(t))` for `t` the matched numeric run with commas removed
(so `t` consists of digits and dots).  `float` accepts `t` iff it has at most
one dot and at least one digit; truncation keeps the digits before the dot.
Exact for the magnitudes appearing on vehicle pages (below the
double-precision integer threshold); Python would round, not truncate, a
fractional part of more than about twelve nines, which no claim exercises. -/
def pyIntFloat (t : List Char) : Except String Int :=
  if t.count '.' ≤ 1 && t.any Char.isDigit then
    .ok (natOfDigits (t.takeWhile (fun c => c ≠ '.')) : Nat)
  else
    .error "ValueError"

/-- `norm_km`, with the possible `ValueError` from `float` made explicit.
`.ok none` is Python `None`; `.error` is a raised exception. -/
def norm_km (txt : String) : Except String (Option Int) :=
  if txt = "" then .ok none
  else
    match kmSearch txt.toList with
    | none => .ok none
    | some run => (pyIntFloat (run.filter (fun c => c ≠ ','))).map some

/-! ## The remaining regular-expression passes of `enrich_vehicle`

Each definition embeds one pattern literal from `main.py`; the position
matchers implement the pattern with run-based deterministic matching where
the adjacent character classes are disjoint, and explicit alternative
enumeration where the pattern genuinely backtracks.
-/

/-- `\b(20\d{2})\b` (line 152): scanner carrying the previous character for
the left word boundary; returns the year as an integer. -/
def yearScan : Option Char → List Char → Option Int
  | _, [] => none
  | prev, c :: rest =>
    match
      (match c, rest with
       | '2', '0' :: a :: b :: r2 =>
         if prevOk prev && a.isDigit && b.isDigit && afterOk r2 then
           some ((2000 + 10 * (a.toNat - 48) + (b.toNat - 48) : Nat) : Int)
         else none
       | _, _ => none) with
    | some y => some y
    | none => yearScan (some c) rest

/-- `re.search(r"\b(20\d{2})\b", title)`. -/
def yearSearch (s : List Char) : Option Int := yearScan none s

/-- VIN character class `[A-HJ-NPR-Z0-9]` of `VIN_RX` (line 28). -/
def vinChar (c : Char) : Bool :=
  (c.isUpper && c ≠ 'I' && c ≠ 'O' && c ≠ 'Q') || c.isDigit

/-- `VIN_RX = \b[A-HJ-NPR-Z0-9]{17}\b` (line 28): leftmost 17-character run
of VIN characters delimited by word boundaries. -/
def vinScan : Option Char → List Char → Option (List Char)
  | _, [] => none
  | prev, s@(c :: rest) =>
    let cand := s.take 17
    if prevOk prev && cand.length = 17 && cand.all vinChar && afterOk (s.drop 17) then
      some cand
    else vinScan (some c) rest

/-- `VIN_RX.search`. -/
def vinSearch (s : List Char) : Option (List Char) := vinScan none s

/-- `re.search(r"\$?\s*([\d,][\d,\.]*)", price_txt)` (line 173) at one
position: an optional dollar sign (taking it when present is forced, since
the alternative leaves `\s*` and `[\d,]` facing `$`), optional whitespace,
then the greedy numeric group starting with a digit or comma. -/
def m2At (s : List Char) : Option (List Char) :=
  let s1 := match s with
    | '$' :: r => r
    | _ => s
  let s2 := s1.dropWhile pySpace
  match s2 with
  | c :: r => if c.isDigit || c = ',' then some (c :: r.takeWhile numCh) else none
  | [] => none

/-- Leftmost match of the price-fragment pattern; yields `group(1)`. -/
def m2Search (s : List Char) : Option (List Char) := scanOpt m2At s

/-- `re.search(r"[A-Za-z]{0,2}[-]?\d{3,7}[A-Za-z]?", stock_txt)` (line 180)
at one position.  Letters, `-` and digits are disjoint classes: a letter run
longer than two can never be completed, the dash is taken exactly when
present, the digit run is consumed greedily up to seven, and a trailing
letter is taken when present.  Yields `group(0)`. -/
def m3At (s : List Char) : Option (List Char) :=
  let letters := s.takeWhile Char.isAlpha
  if letters.length > 2 then none
  else
    let s1 := s.drop letters.length
    let dashed := match s1 with
      | '-' :: _ => true
      | _ => false
    let s2 := if dashed then s1.drop 1 else s1
    let digits := s2.takeWhile Char.isDigit
    if digits.length < 3 then none
    else
      let dt := digits.take 7
      let s3 := s2.drop dt.length
      let tl := match s3 with
        | c :: _ => if c.isAlpha then [c] else []
        | [] => []
      some (letters ++ (if dashed then ['-'] else []) ++ dt ++ tl)

/-- Leftmost match of the loose stock pattern of line 180. -/
def m3Search (s : List Char) : Option (List Char) := scanOpt m3At s

/-- Continuation `\s*[:#]?\s*([A-Za-z]{0,3}\d{2}-\d{4,6}[A-Za-z]?)` of the
labeled stock pattern (line 187).  The separator consumption is
deterministic (whitespace, `:`/`#` and the group classes are disjoint); the
group needs exactly two digits before the dash, four to six digits after it
(consumed greedily, capped at six), and an optional trailing letter.
Yields `group(1)`. -/
def stockCont (s : List Char) : Option (List Char) :=
  let s1 := s.dropWhile pySpace
  let s2 := match s1 with
    | c :: r => if c = ':' || c = '#' then r else s1
    | [] => s1
  let s3 := s2.dropWhile pySpace
  let letters := s3.takeWhile Char.isAlpha
  if letters.length > 3 then none
  else
    let s4 := s3.drop letters.length
    let d1 := s4.takeWhile Char.isDigit
    if d1.length ≠ 2 then none
    else
      match s4.drop 2 with
      | '-' :: s5 =>
        let d2 := s5.takeWhile Char.isDigit
        if d2.length < 4 then none
        else
          let dt := d2.take 6
          let s6 := s5.drop dt.length
          let tl := match s6 with
            | c :: _ => if c.isAlpha then [c] else []
            | [] => []
          some (letters ++ d1 ++ '-' :: dt ++ tl)
      | _ => none

/-- `(?:Stock(?:\s+#| Number)?)\s*[:#]?\s*(...)` (line 187, `re.I`) at one
position: the literal `Stock`, then the optional group's alternatives in
pattern order — `\s+#`, a single space followed by `Number`, or nothing —
each continued by `stockCont`, backtracking to the next alternative when the
continuation fails. -/
def stockLabeledAt (s : List Char) : Option (List Char) :=
  if startsCI "stock" s then
    let r0 := s.drop 5
    let alt1 :=
      let w := r0.takeWhile pySpace
      if w.isEmpty then none
      else
        match r0.drop w.length with
        | '#' :: r1 => stockCont r1
        | _ => none
    match alt1 with
    | some g => some g
    | none =>
      let alt2 := match r0 with
        | ' ' :: r1 => if startsCI "number" r1 then stockCont (r1.drop 6) else none
        | _ => none
      match alt2 with
      | some g => some g
      | none => stockCont r0
  else none

/-- Leftmost match of the labeled stock pattern of line 187. -/
def stockLabeledSearch (s : List Char) : Option (List Char) := scanOpt stockLabeledAt s

/-- `\b[A-Za-z]{0,3}\d{2}-\d{4,6}[A-Za-z]?\b` (line 193) at one position.
The trailing boundary forces the digit run after the dash to be consumed
entirely, so it must have length four to six; a trailing letter must itself
be followed by a non-word character. -/
def stockStrictAt (prev : Option Char) (s : List Char) : Option (List Char) :=
  if prevOk prev then
    let letters := s.takeWhile Char.isAlpha
    if letters.length > 3 then none
    else
      let s1 := s.drop letters.length
      let d1 := s1.takeWhile Char.isDigit
      if d1.length ≠ 2 then none
      else
        match s1.drop 2 with
        | '-' :: s2 =>
          let d2 := s2.takeWhile Char.isDigit
          if d2.length < 4 || 6 < d2.length then none
          else
            let core := letters ++ d1 ++ '-' :: d2
            match s2.drop d2.length with
            | [] => some core
            | c :: s3 =>
              if c.isAlpha then
                if afterOk s3 then some (core ++ [c]) else none
              else if isWordChar c then none
              else some core
        | _ => none
  else none

/-- Leftmost-match scanner for the strict dashed stock pattern (line 193). -/
def stockStrictScan : Option Char → List Char → Option (List Char)
  | prev, [] =>
    match stockStrictAt prev [] with
    | some g => some g
    | none => none
  | prev, s@(c :: rest) =>
    match stockStrictAt prev s with
    | some g => some g
    | none => stockStrictScan (some c) rest

/-- `re.search` for the strict dashed stock pattern. -/
def stockStrictSearch (s : List Char) : Option (List Char) := stockStrictScan none s

/-- Lazy-group scanner shared by `TRIM_RX` and the `Ext. Color` pattern:
grow the group (characters satisfying `inCl`, accumulated reversed in `acc`)
one character at a time, and stop at the first point where the group has at
least `minLen` characters and the terminator matches the remaining text —
the semantics of a lazy `+?` followed by a terminating group. -/
def lazyGroup (term : List Char → Bool) (inCl : Char → Bool) (minLen : Nat) :
    List Char → List Char → Option (List Char)
  | _, [] => none
  | acc, s@(c :: r) =>
    if minLen ≤ acc.length && term s then some acc.reverse
    else if inCl c then lazyGroup term inCl minLen (c :: acc) r
    else none

/-- Terminator `(?:\s+\d{2}-\d{4,6}[A-Z]?|\s+VIN|\s+Automatic|\s+Bodystyle)`
of `TRIM_RX` (line 30, `re.I`): matchability only. -/
def trimTermAt (s : List Char) : Bool :=
  let w := s.takeWhile pySpace
  if w.isEmpty then false
  else
    let t := s.drop w.length
    (let d1 := t.takeWhile Char.isDigit
     d1.length = 2 &&
       (match t.drop 2 with
        | '-' :: r => (r.takeWhile Char.isDigit).length ≥ 4
        | _ => false)) ||
    startsCI "vin" t || startsCI "automatic" t || startsCI "bodystyle" t

/-- Group class `[A-Za-z0-9\- ]` of `TRIM_RX`. -/
def trimCl (c : Char) : Bool := c.isAlpha || c.isDigit || c = '-' || c = ' '

/-- The `\s+` of `TRIM_RX` backtracks: because the group class contains the
space character, a shorter whitespace run can hand spaces to the group.  Try
run lengths from `k` down to one. -/
def trimWsLoop (r0 : List Char) : Nat → Option (List Char)
  | 0 => none
  | k + 1 =>
    match lazyGroup trimTermAt trimCl 1 [] (r0.drop (k + 1)) with
    | some g => some g
    | none => trimWsLoop r0 k

/-- `TRIM_RX` (line 30) at one position: literal `Trim`, whitespace (with
backtracking), then the lazy group up to a terminator.  Yields `group(1)`. -/
def trimAt (s : List Char) : Option (List Char) :=
  if startsCI "trim" s then
    let r0 := s.drop 4
    trimWsLoop r0 (r0.takeWhile pySpace).length
  else none

/-- `TRIM_RX.search` (line 196). -/
def trimSearch (s : List Char) : Option (List Char) := scanOpt trimAt s

/-- Numeric terminator alternative `\d{1,3},?\d{0,3}\s*KM` of the
`Ext. Color` pattern (line 199): at most six digits, optionally with a comma
after the first one-to-three, then optional whitespace and `KM`. -/
def extKmTerm (s : List Char) : Bool :=
  let d1 := s.takeWhile Char.isDigit
  if d1.isEmpty then false
  else if d1.length ≤ 3 then
    let t := s.drop d1.length
    let commaTaken := match t with
      | ',' :: _ => true
      | _ => false
    let t2 := if commaTaken then t.drop 1 else t
    let d2 := t2.takeWhile Char.isDigit
    if d2.length ≤ 3 then startsCI "km" ((t2.drop d2.length).dropWhile pySpace)
    else false
  else if d1.length ≤ 6 then
    startsCI "km" ((s.drop d1.length).dropWhile pySpace)
  else false

/-- Terminator alternation
`(?:\s{2,}|Int\.|Interior|Drivetrain|Frame|Bodystyle|Options|\d{1,3},?\d{0,3}\s*KM)`
of the `Ext. Color` pattern (line 199, `re.I`): matchability only. -/
def extTermAt (s : List Char) : Bool :=
  (match s with
   | a :: b :: _ => pySpace a && pySpace b
   | _ => false) ||
  startsCI "int." s || startsCI "interior" s || startsCI "drivetrain" s ||
  startsCI "frame" s || startsCI "bodystyle" s || startsCI "options" s ||
  extKmTerm s

/-- Group class `[A-Za-z \-]` of the `Ext. Color` pattern. -/
def extCl (c : Char) : Bool := c.isAlpha || c = ' ' || c = '-'

/-- `re.search(r"Ext\.?\s*Color\s*([A-Za-z][A-Za-z \-]+?)(?:...)", full, re.I)`
(line 199) at one position.  Taking the optional dot and the maximal
whitespace runs is deterministic (the following literals and the group's
first character, a letter, cannot consume them); the group is the first
letter plus a lazy run of at least one more class character, stopped by the
terminator alternation.  Yields `group(1)`. -/
def extColorAt (s : List Char) : Option (List Char) :=
  if startsCI "ext" s then
    let r0 := s.drop 3
    let r1 := match r0 with
      | '.' :: t => t
      | _ => r0
    let r2 := r1.dropWhile pySpace
    if startsCI "color" r2 then
      let r3 := (r2.drop 5).dropWhile pySpace
      match r3 with
      | c :: r4 => if c.isAlpha then lazyGroup extTermAt extCl 2 [c] r4 else none
      | [] => none
    else none
  else none

/-- Leftmost match of the `Ext. Color` pattern of line 199. -/
def extColorSearch (s : List Char) : Option (List Char) := scanOpt extColorAt s

/-! ## Label sets and the label-proximity scanner

`main.py` lines 23-26 define the per-field label sets as Python `set`
literals.  They are used for order-free membership tests
(`any(lbl in key for lbl in labels)`) and, in the list-item pass, inside a
`re.sub` alternation whose order is the set's iteration order —
implementation-defined in Python.  The lists below follow the order of the
source literals; every theorem that exercises the alternation does so on an
input whose result is the same under any order of these particular labels.
-/

def LABELS_PRICE : List String := ["purchase price", "price", "our price", "dealer price", "internet price"]

def LABELS_MILE : List String := ["kilometres", "kilometers", "odometer", "km"]

def LABELS_COLOR : List String := ["exterior colour", "exterior color", "colour", "color"]

def LABELS_STOCK : List String := ["stock #", "stock number", "stock", "stk"]

/-- `any(lbl in low for lbl in labels)` with `low` already lower-cased. -/
def labelHit (labels : List String) (low : List Char) : Bool :=
  labels.any (fun l => lcontains low l.toList)

/-- First label of the `re.sub` alternation `(l1|l2|...)` that matches
(case-insensitively) at the current position; yields its length.  Empty
labels never occur in the source label sets and are skipped. -/
def findLabelAt (labels : List String) (s : List Char) : Option Nat :=
  labels.findSome? fun l =>
    if l ≠ "" && startsCI l s then some l.toList.length else none

/-- One `re.sub(r"(?i)(l1|l2|...)\s*[:#-]?\s*", "", txt)` pass
(line 89): scan left to right; at a label occurrence drop the label and the
separator run `\s*[:#-]?\s*` (deterministic: the separator characters and
whitespace are disjoint and nothing follows them in the pattern), otherwise
emit the character.  Fuel is the input length — each step consumes at least
one character. -/
def stripLabelsGo (labels : List String) : Nat → List Char → List Char
  | 0, s => s
  | _ + 1, [] => []
  | fuel + 1, s@(c :: rest) =>
    match findLabelAt labels s with
    | some n =>
      let r1 := (s.drop n).dropWhile pySpace
      let r2 := match r1 with
        | d :: t => if d = ':' || d = '#' || d = '-' then t else r1
        | [] => r1
      stripLabelsGo labels fuel (r2.dropWhile pySpace)
    | none => c :: stripLabelsGo labels fuel rest

/-- The label-stripping substitution of the list-item pass. -/
def stripLabels (labels : List String) (s : List Char) : List Char :=
  stripLabelsGo labels s.length s

/-- One element of the `_spec_scope` region, as traversed by
`_find_labeled_value_in` (lines 79-95): a `dt`/`th` with the text of its
following `dd`/`td` sibling when one exists, an `li`, or a text-bearing
`div`/`span`/`p` block. -/
inductive SpecNode
  | pair (key : String) (val : Option String)
  | item (txt : String)
  | block (txt : String)
deriving DecidableEq

/-- `_find_labeled_value_in(scope, labels)` (lines 79-95): three passes in
order — term/definition pairs (returning the paired text when a matching
`dt` has a sibling), list items (stripping the label tokens and stripping
whitespace), and generic blocks containing a colon (returning the text after
the first colon, stripped).  Each pass scans the region in document order. -/
def findLabeledValueIn (scope : List SpecNode) (labels : List String) : Option String :=
  let pass1 := scope.findSome? fun n =>
    match n with
    | .pair k (some v) => if labelHit labels (lowerL k.toList) then some v else none
    | _ => none
  match pass1 with
  | some v => some v
  | none =>
    let pass2 := scope.findSome? fun n =>
      match n with
      | .item t =>
        if labelHit labels (lowerL t.toList) then
          some (String.mk (pyStrip (stripLabels labels t.toList)))
        else none
      | _ => none
    match pass2 with
    | some v => some v
    | none =>
      scope.findSome? fun n =>
        match n with
        | .block t =>
          if labelHit labels (lowerL t.toList) && lcontains t.toList [':'] then
            some (pyStripS (String.mk ((t.toList.dropWhile (fun c => c ≠ ':')).drop 1)))
          else none
        | _ => none

/-! ## The document model and the vehicle record -/

/-- The dictionary returned by `_jsonld_vehicle(soup)` (lines 97-119) when a
`Vehicle`/`Product` node exists: the already-formatted price string, the
`sku`/`mpn` stock value, the color, and the parsed mileage.  A field is
`none` when the corresponding key is absent or `None` in the dictionary. -/
structure JHints where
  price : Option String
  stock_number : Option String
  color : Option String
  mileage_km : Option Int
deriving DecidableEq

/-- A fetched detail document, holding exactly the observations
`enrich_vehicle` makes of the parsed page:

* `titleText` — the Python local `title` of lines 149-150 (text of the first
  `h1`/`.title` element or the `og:title` content), with Python's
  `None` collapsed to `""`, which every use (`title or url`,
  `re.search(..., title or "")`, `_mm_from_title`) treats identically;
* `jsonld` — the `_jsonld_vehicle` result; `none` models the empty (falsy)
  dictionary returned when no `Vehicle`/`Product` node exists, `some`
  the necessarily non-empty dictionary built from such a node;
* `scope` — the `_spec_scope(soup)` region as seen by
  `_find_labeled_value_in`;
* `fullText` — `soup.get_text(" ", strip=True)` (line 183), the whole page;
* `anchors` — the `href` attributes of the page's anchor elements in
  document order, as queried by the Carfax selector (line 206). -/
structure Doc where
  titleText : String
  jsonld : Option JHints
  scope : List SpecNode
  fullText : String
  anchors : List String
deriving DecidableEq

/-- The `year` slot of the record dictionary holds the caller-supplied query
string or the integer parsed from the title (line 153). -/
inductive YearV
  | str (s : String)
  | int (n : Int)
deriving DecidableEq

/-- The record dictionary `v` built by `enrich_vehicle` (lines 140-145). -/
structure VehicleRecord where
  url : String
  title : Option String
  year : Option YearV
  make : Option String
  model : Option String
  trim : String
  price : Option String
  color : Option String
  mileage_km : Option Int
  stock_number : Option String
  vin : Option String
  carfax_url : Option String
  error : Option String
deriving DecidableEq

/-- `BASE` (line 12). -/
def BASE : String := "https://www.barrhavenvw.ca"

/-- Whether a reference carries a URL scheme (`scheme:`), the case in which
`urljoin` returns it unchanged. -/
def hasScheme (href : String) : Bool :=
  let pre := href.toList.takeWhile (fun c => c ≠ ':')
  pre.length < href.toList.length && ¬ pre.isEmpty &&
    (match pre with
     | c :: rest => c.isAlpha && rest.all (fun d => d.isAlpha || d.isDigit || d = '+' || d = '-' || d = '.')
     | [] => false)

/-- `urljoin(BASE, href)` for the reference shapes produced by the site
(absolute, protocol-relative, root-relative, bare relative), against the
path-less base origin `BASE`. -/
def canonUrl (href : String) : String :=
  if hasScheme href then href
  else if startsCI "//" href.toList then "https:" ++ href
  else if startsCI "/" href.toList then BASE ++ href
  else BASE ++ "/" ++ href

/-- `soup.select_one("a[href*='carfax'], a[href*='vhr.carfax']")` (line 206):
the first anchor whose `href` contains `carfax` (the second selector is a
special case of the first; CSS substring matching is case-sensitive). -/
def carfaxAnchor (anchors : List String) : Option String :=
  anchors.find? fun h => lcontains h.toList "carfax".toList

/-- `_mm_from_title(title)` (lines 131-136). -/
def mm_from_title (title : String) : Option String × Option String :=
  if title = "" then (none, none)
  else
    match pyWords title.toList with
    | p0 :: p1 :: p2 :: _ =>
      if pyIsDigit p0 then (some (String.mk p1), some (String.mk p2)) else (none, none)
    | _ => (none, none)

/-! ## The assembler steps (`enrich_vehicle`, lines 139-212)

Each step embeds one statement group of the `try` body, in source order.
Fallible steps return `Except String VehicleRecord`; an error is the raised
exception caught by `except Exception as e` at line 210, which sets
`v["error"]` on the record as it stood when the exception was raised (every
fallible statement raises before mutating `v`).
-/

/-- Lines 149-156: title extraction with URL fallback, the 4-digit year from
the title, and make/model from title token positions when the caller did not
supply them (Python `or`, so empty strings also count as unsupplied). -/
def stepTitle (d : Doc) (v : VehicleRecord) : VehicleRecord :=
  let title := d.titleText
  let v := { v with title := some (if title = "" then v.url else title) }
  let v := match yearSearch title.toList with
    | some y => { v with year := some (.int y) }
    | none => v
  let mm := mm_from_title title
  { v with make := pyOrS v.make mm.1, model := pyOrS v.model mm.2 }

/-- Lines 158-164: merge the JSON-LD hints with Python `or` truthiness
(an empty-string or zero hint falls through to the existing value). -/
def stepJsonld (d : Doc) (v : VehicleRecord) : VehicleRecord :=
  match d.jsonld with
  | none => v
  | some j =>
    { v with
      price := pyOrS j.price v.price
      stock_number := pyOrS j.stock_number v.stock_number
      color := pyOrS j.color v.color
      mileage_km := pyOrI j.mileage_km v.mileage_km }

/-- Lines 172-174: accept the labeled price fragment unless it contains
`rebate` (case-insensitively); the extracted numeric run unconditionally
overwrites `v["price"]`. -/
def stepPrice (d : Doc) (v : VehicleRecord) : VehicleRecord :=
  match findLabeledValueIn d.scope LABELS_PRICE with
  | some s =>
    if s ≠ "" && ¬ containsCI s "rebate" then
      match m2Search s.toList with
      | some g => { v with price := some ("$" ++ String.mk (replDD g)) }
      | none => v
    else v
  | none => v

/-- Lines 175-176: `norm_km` on the labeled odometer fragment, only when the
mileage is still `None`; `norm_km` may raise. -/
def stepOdo (d : Doc) (v : VehicleRecord) : Except String VehicleRecord :=
  match findLabeledValueIn d.scope LABELS_MILE with
  | some s =>
    if s ≠ "" && v.mileage_km = none then
      (norm_km s).map fun r => { v with mileage_km := r }
    else .ok v
  | none => .ok v

/-- Lines 177-178: `v["color"] = _clean_text(color_txt).split()[-1].title()`
— the last whitespace token of the cleaned fragment, title-cased,
unconditionally overwriting `v["color"]`; `[-1]` raises on an empty token
list. -/
def stepColor (d : Doc) (v : VehicleRecord) : Except String VehicleRecord :=
  match findLabeledValueIn d.scope LABELS_COLOR with
  | some s =>
    if s ≠ "" then
      match pyWords (cleanTextL s.toList) with
      | [] => .error "IndexError: list index out of range"
      | w :: ws => .ok { v with color := some (String.mk (pyTitle ((w :: ws).getLastD []))) }
    else .ok v
  | none => .ok v

/-- Lines 179-181: the loose stock pattern over the labeled fragment, with
the cleaned fragment as fallback, only when the stock number is still
`None`. -/
def stepStock (d : Doc) (v : VehicleRecord) : VehicleRecord :=
  match findLabeledValueIn d.scope LABELS_STOCK with
  | some s =>
    if s ≠ "" && v.stock_number = none then
      { v with stock_number := some (match m3Search s.toList with
          | some g => String.mk g
          | none => cleanText s) }
    else v
  | none => v

/-- Lines 183-185: `VIN_RX.search` over the whole page text. -/
def stepVin (d : Doc) (v : VehicleRecord) : VehicleRecord :=
  match vinSearch d.fullText.toList with
  | some g => { v with vin := some (String.mk g) }
  | none => v

/-- Lines 186-195: labeled then strict dashed stock patterns over the whole
page text, when `v["stock_number"]` is still falsy. -/
def stepStockFB (d : Doc) (v : VehicleRecord) : VehicleRecord :=
  if pyNotS v.stock_number then
    match stockLabeledSearch d.fullText.toList with
    | some g => { v with stock_number := some (String.mk g) }
    | none =>
      match stockStrictSearch d.fullText.toList with
      | some g => { v with stock_number := some (String.mk g) }
      | none => v
  else v

/-- Text before the first occurrence of `sep` (Python `split(sep)[0]`). -/
def beforeSep (sep : List Char) : List Char → List Char
  | [] => []
  | s@(c :: rest) => if lstarts sep s then [] else c :: beforeSep sep rest

/-- Lines 196-197: `TRIM_RX` over the whole page text;
`group(1).split(" - ")[0].strip()`. -/
def stepTrim (d : Doc) (v : VehicleRecord) : VehicleRecord :=
  match trimSearch d.fullText.toList with
  | some g => { v with trim := String.mk (pyStrip (beforeSep " - ".toList g)) }
  | none => v

/-- Lines 198-201, as written:

```python
if not v["color"]:
    mc = re.search(r"Ext\.?\s*Color\s*...", full, re.I)
if mc:
    v["color"] = mc.group(1).strip().title()
```

`if mc:` sits outside the guard, so when a color is already present the
local `mc` is unbound and the line raises `UnboundLocalError`, which the
boundary handler catches. -/
def stepColorRegex (d : Doc) (v : VehicleRecord) : Except String VehicleRecord :=
  if pyNotS v.color then
    match extColorSearch d.fullText.toList with
    | some g => .ok { v with color := some (String.mk (pyTitle (pyStrip g))) }
    | none => .ok v
  else .error "UnboundLocalError: local variable 'mc' referenced before assignment"

/-- Lines 202-204: `ODO_RX` over the whole page text when the mileage is
still `None`; `int(float(...))` may raise. -/
def stepOdoFB (d : Doc) (v : VehicleRecord) : Except String VehicleRecord :=
  if v.mileage_km = none then
    match kmSearch d.fullText.toList with
    | some run => (pyIntFloat (run.filter (fun c => c ≠ ','))).map
        fun n => { v with mileage_km := some n }
    | none => .ok v
  else .ok v

/-- Lines 206-208: the Carfax hyperlink by `href`-substring match,
canonicalized against `BASE`. -/
def stepCarfax (d : Doc) (v : VehicleRecord) : VehicleRecord :=
  match carfaxAnchor d.anchors with
  | some h => { v with carfax_url := some (canonUrl h) }
  | none => v

/-- Lines 202-208: the mileage full-text fallback and the Carfax step, with
the boundary handler of lines 210-211. -/
def tailOdoFB (d : Doc) (v : VehicleRecord) : VehicleRecord :=
  match stepOdoFB d v with
  | .error e => { v with error := some e }
  | .ok v => stepCarfax d v

/-- Lines 198-208: the misindented `Ext. Color` block and what follows it. -/
def tailColorRegex (d : Doc) (v : VehicleRecord) : VehicleRecord :=
  match stepColorRegex d v with
  | .error e => { v with error := some e }
  | .ok v => tailOdoFB d v

/-- Lines 179-208: the labeled stock acceptance, the full-text passes and
what follows them. -/
def tailStock (d : Doc) (v : VehicleRecord) : VehicleRecord :=
  tailColorRegex d (stepTrim d (stepStockFB d (stepVin d (stepStock d v))))

/-- Lines 177-208: the color acceptance and what follows it. -/
def tailColor (d : Doc) (v : VehicleRecord) : VehicleRecord :=
  match stepColor d v with
  | .error e => { v with error := some e }
  | .ok v => tailStock d v

/-- Lines 175-208, the statements following the price acceptance, with the
boundary handler of lines 210-211 wrapped around each fallible step: an
exception leaves the record as it stood (each fallible statement raises
before mutating `v`) and sets `error`. -/
def enrichAfterPrice (d : Doc) (v : VehicleRecord) : VehicleRecord :=
  match stepOdo d v with
  | .error e => { v with error := some e }
  | .ok v => tailColor d v

/-- The `try` body after a successful fetch (lines 149-208). -/
def enrichWithDoc (d : Doc) (v0 : VehicleRecord) : VehicleRecord :=
  enrichAfterPrice d (stepPrice d (stepJsonld d (stepTitle d v0)))

/-- `enrich_vehicle(url, make, model, year)` (lines 139-212).  The network
fetch is abstracted as its outcome: `.ok d` a parsed document, `.error e` a
raised fetch failure, caught by the boundary handler before any field is
extracted. -/
def enrich_vehicle (fetched : Except String Doc) (url : String)
    (make model : Option String) (year : Option YearV) : VehicleRecord :=
  let v : VehicleRecord :=
    { url := url, title := none, year := year, make := make, model := model,
      trim := "", price := none, color := none, mileage_km := none,
      stock_number := none, vin := none, carfax_url := none, error := none }
  match fetched with
  | .error e => { v with error := some e }
  | .ok d => enrichWithDoc d v

/-! ## The search orchestrator pieces (`inventory_search`, lines 226-250) -/

/-- `terms = [t.lower() for t in (q or "").split()]` (line 241). -/
def mkTerms (q : String) : List String :=
  (pyWords q.toList).map fun w => String.mk (lowerL w)

/-- Characters after the last slash; `acc` is the current segment,
reversed. -/
def afterLastSlash : List Char → List Char → List Char
  | [], acc => acc.reverse
  | c :: rest, acc =>
    if c = '/' then afterLastSlash rest [] else afterLastSlash rest (c :: acc)

/-- `u.rsplit("/", 1)[-1]`: text after the last slash (the whole string when
no slash occurs). -/
def lastSegment (u : String) : String :=
  String.mk (afterLastSlash u.toList [])

/-- The candidate slug of `keep` (line 244): final path segment, hyphens
replaced by spaces, lower-cased. -/
def slugOf (u : String) : List Char :=
  lowerL ((lastSegment u).toList.map fun c => if c = '-' then ' ' else c)

/-- `keep(u)` (lines 242-245): with no filter terms every URL is kept;
otherwise every term must occur in the slug. -/
def keepURL (terms : List String) (u : String) : Bool :=
  if terms.isEmpty then true
  else terms.all fun t => lcontains (slugOf u) t.toList

/-- `out = [enrich_vehicle(u, make, model, year) for u in urls[:10]]`
(line 248), with each candidate's fetch outcome supplied alongside its URL;
the caller-supplied year is the query string, as in `inventory_search`. -/
def inventory_batch (items : List (String × Except String Doc))
    (make model : Option String) (year : Option String) : List VehicleRecord :=
  (items.take 10).map fun p => enrich_vehicle p.2 p.1 make model (year.map .str)

/-! ## Step lemmas

For each assembler step: which record fields it leaves untouched, when it is
a no-op, and what it writes.  These drive the claim theorems below.
-/

theorem stepTitle_keeps (d : Doc) (v : VehicleRecord) :
    (stepTitle d v).price = v.price ∧ (stepTitle d v).color = v.color ∧
    (stepTitle d v).mileage_km = v.mileage_km ∧ (stepTitle d v).stock_number = v.stock_number ∧
    (stepTitle d v).vin = v.vin ∧ (stepTitle d v).carfax_url = v.carfax_url ∧
    (stepTitle d v).error = v.error ∧ (stepTitle d v).trim = v.trim ∧
    (stepTitle d v).url = v.url := by
  simp only [stepTitle]
  split <;> simp

theorem stepJsonld_keeps (d : Doc) (v : VehicleRecord) :
    (stepJsonld d v).title = v.title ∧ (stepJsonld d v).year = v.year ∧
    (stepJsonld d v).make = v.make ∧ (stepJsonld d v).model = v.model ∧
    (stepJsonld d v).vin = v.vin ∧ (stepJsonld d v).carfax_url = v.carfax_url ∧
    (stepJsonld d v).error = v.error ∧ (stepJsonld d v).trim = v.trim ∧
    (stepJsonld d v).url = v.url := by
  simp only [stepJsonld]
  split <;> simp

theorem stepJsonld_of_jsonld (d : Doc) (v : VehicleRecord) (j : JHints)
    (hj : d.jsonld = some j) :
    stepJsonld d v =
      { v with
        price := pyOrS j.price v.price
        stock_number := pyOrS j.stock_number v.stock_number
        color := pyOrS j.color v.color
        mileage_km := pyOrI j.mileage_km v.mileage_km } := by
  simp [stepJsonld, hj]

theorem stepPrice_keeps (d : Doc) (v : VehicleRecord) :
    (stepPrice d v).color = v.color ∧ (stepPrice d v).mileage_km = v.mileage_km ∧
    (stepPrice d v).stock_number = v.stock_number ∧ (stepPrice d v).vin = v.vin ∧
    (stepPrice d v).carfax_url = v.carfax_url ∧ (stepPrice d v).error = v.error := by
  simp only [stepPrice]
  split
  · split
    · split <;> simp
    · simp
  · simp

theorem stepPrice_of_rebate (d : Doc) (v : VehicleRecord) (s : String)
    (hs : findLabeledValueIn d.scope LABELS_PRICE = some s)
    (hreb : containsCI s "rebate" = true) :
    stepPrice d v = v := by
  simp [stepPrice, hs, hreb]

theorem stepOdo_keeps (d : Doc) (v v' : VehicleRecord) (h : stepOdo d v = .ok v') :
    v'.price = v.price ∧ v'.color = v.color ∧ v'.stock_number = v.stock_number ∧
    v'.vin = v.vin ∧ v'.carfax_url = v.carfax_url ∧ v'.error = v.error := by
  simp only [stepOdo] at h
  split at h
  · split at h
    · cases hn : norm_km _ with
      | error e => rw [hn] at h; simp [Except.map] at h
      | ok r => rw [hn] at h; simp [Except.map] at h; cases h; simp
    · cases h; simp
  · cases h; simp

theorem stepOdo_skip (d : Doc) (v : VehicleRecord) (n : Int)
    (h : v.mileage_km = some n) : stepOdo d v = .ok v := by
  simp only [stepOdo]
  split
  · split
    · rename_i hc
      rw [h] at hc
      simp at hc
    · rfl
  · rfl

theorem stepOdo_ok (d : Doc) (v : VehicleRecord)
    (hOdo : ∀ s, findLabeledValueIn d.scope LABELS_MILE = some s → ∃ r, norm_km s = .ok r) :
    ∃ v', stepOdo d v = .ok v' := by
  simp only [stepOdo]
  split
  · rename_i s hs
    split
    · obtain ⟨r, hr⟩ := hOdo s hs
      exact ⟨{ v with mileage_km := r }, by rw [hr]; rfl⟩
    · exact ⟨v, rfl⟩
  · exact ⟨v, rfl⟩

theorem stepColor_keeps (d : Doc) (v v' : VehicleRecord) (h : stepColor d v = .ok v') :
    v'.price = v.price ∧ v'.mileage_km = v.mileage_km ∧ v'.stock_number = v.stock_number ∧
    v'.vin = v.vin ∧ v'.carfax_url = v.carfax_url ∧ v'.error = v.error := by
  simp only [stepColor] at h
  split at h
  · split at h
    · split at h
      · simp at h
      · cases h; simp
    · cases h; simp
  · cases h; simp

theorem stepColor_value (d : Doc) (v : VehicleRecord) (c : String) (w : List Char)
    (ws : List (List Char))
    (hc : findLabeledValueIn d.scope LABELS_COLOR = some c) (hne : c ≠ "")
    (hw : pyWords (cleanTextL c.toList) = w :: ws) :
    stepColor d v =
      .ok { v with color := some (String.mk (pyTitle ((w :: ws).getLastD []))) } := by
  have hw' : pyWords (cleanTextL c.data) = w :: ws := hw
  simp [stepColor, hc, hne, hw']

theorem stepColor_ok (d : Doc) (v : VehicleRecord)
    (hColor : ∀ c, findLabeledValueIn d.scope LABELS_COLOR = some c → c ≠ "" →
      pyWords (cleanTextL c.toList) ≠ []) :
    ∃ v', stepColor d v = .ok v' := by
  simp only [stepColor]
  split
  · rename_i c hc
    split
    · rename_i hne
      cases hw : pyWords (cleanTextL c.toList) with
      | nil =>
        exact absurd hw (hColor c hc (by simpa using hne))
      | cons w ws => exact ⟨_, rfl⟩
    · exact ⟨v, rfl⟩
  · exact ⟨v, rfl⟩

theorem stepStock_keeps (d : Doc) (v : VehicleRecord) :
    (stepStock d v).price = v.price ∧ (stepStock d v).color = v.color ∧
    (stepStock d v).mileage_km = v.mileage_km ∧ (stepStock d v).vin = v.vin ∧
    (stepStock d v).carfax_url = v.carfax_url ∧ (stepStock d v).error = v.error := by
  simp only [stepStock]
  split
  · split <;> simp
  · simp

theorem stepStock_skip (d : Doc) (v : VehicleRecord) (s : String)
    (h : v.stock_number = some s) : stepStock d v = v := by
  simp only [stepStock]
  split
  · split
    · rename_i hc
      rw [h] at hc
      simp at hc
    · rfl
  · rfl

theorem stepVin_keeps (d : Doc) (v : VehicleRecord) :
    (stepVin d v).price = v.price ∧ (stepVin d v).color = v.color ∧
    (stepVin d v).mileage_km = v.mileage_km ∧ (stepVin d v).stock_number = v.stock_number ∧
    (stepVin d v).carfax_url = v.carfax_url ∧ (stepVin d v).error = v.error := by
  simp only [stepVin]
  split <;> simp

theorem stepVin_vin (d : Doc) (v : VehicleRecord) (h : v.vin = none) :
    (stepVin d v).vin = (vinSearch d.fullText.toList).map (fun g => String.mk g) := by
  simp only [stepVin]
  split <;> simp_all

theorem stepStockFB_keeps (d : Doc) (v : VehicleRecord) :
    (stepStockFB d v).price = v.price ∧ (stepStockFB d v).color = v.color ∧
    (stepStockFB d v).mileage_km = v.mileage_km ∧ (stepStockFB d v).vin = v.vin ∧
    (stepStockFB d v).carfax_url = v.carfax_url ∧ (stepStockFB d v).error = v.error := by
  simp only [stepStockFB]
  split
  · split
    · simp
    · split <;> simp
  · simp

theorem stepStockFB_skip (d : Doc) (v : VehicleRecord) (s : String)
    (h : v.stock_number = some s) (hne : s ≠ "") : stepStockFB d v = v := by
  simp only [stepStockFB]
  split
  · rename_i hc
    rw [h] at hc
    simp [pyNotS] at hc
    exact absurd hc hne
  · rfl

theorem stepTrim_keeps (d : Doc) (v : VehicleRecord) :
    (stepTrim d v).price = v.price ∧ (stepTrim d v).color = v.color ∧
    (stepTrim d v).mileage_km = v.mileage_km ∧ (stepTrim d v).stock_number = v.stock_number ∧
    (stepTrim d v).vin = v.vin ∧ (stepTrim d v).carfax_url = v.carfax_url ∧
    (stepTrim d v).error = v.error := by
  simp only [stepTrim]
  split <;> simp

theorem stepColorRegex_keeps (d : Doc) (v v' : VehicleRecord)
    (h : stepColorRegex d v = .ok v') :
    v'.price = v.price ∧ v'.mileage_km = v.mileage_km ∧ v'.stock_number = v.stock_number ∧
    v'.vin = v.vin ∧ v'.carfax_url = v.carfax_url ∧ v'.error = v.error := by
  simp only [stepColorRegex] at h
  split at h
  · split at h <;> (cases h; simp)
  · simp at h

theorem stepColorRegex_raises (d : Doc) (v : VehicleRecord) (c : String)
    (h : v.color = some c) (hne : c ≠ "") :
    stepColorRegex d v =
      .error "UnboundLocalError: local variable 'mc' referenced before assignment" := by
  simp only [stepColorRegex]
  split
  · rename_i hc
    rw [h] at hc
    simp [pyNotS] at hc
    exact absurd hc hne
  · rfl

theorem stepOdoFB_keeps (d : Doc) (v v' : VehicleRecord) (h : stepOdoFB d v = .ok v') :
    v'.price = v.price ∧ v'.color = v.color ∧ v'.stock_number = v.stock_number ∧
    v'.vin = v.vin ∧ v'.carfax_url = v.carfax_url ∧ v'.error = v.error := by
  simp only [stepOdoFB] at h
  split at h
  · split at h
    · cases hn : pyIntFloat _ with
      | error e => rw [hn] at h; simp [Except.map] at h
      | ok r => rw [hn] at h; simp [Except.map] at h; cases h; simp
    · cases h; simp
  · cases h; simp

theorem stepOdoFB_skip (d : Doc) (v : VehicleRecord) (n : Int)
    (h : v.mileage_km = some n) : stepOdoFB d v = .ok v := by
  simp only [stepOdoFB]
  split
  · rename_i hc
    rw [h] at hc
    simp at hc
  · rfl

theorem stepCarfax_keeps (d : Doc) (v : VehicleRecord) :
    (stepCarfax d v).price = v.price ∧ (stepCarfax d v).color = v.color ∧
    (stepCarfax d v).mileage_km = v.mileage_km ∧ (stepCarfax d v).stock_number = v.stock_number ∧
    (stepCarfax d v).vin = v.vin ∧ (stepCarfax d v).error = v.error := by
  simp only [stepCarfax]
  split <;> simp

/-! ## Pipeline-tail lemmas -/

theorem pyTitleAux_length (l : List Char) : ∀ b, (pyTitleAux l b).length = l.length := by
  induction l with
  | nil => intro b; rfl
  | cons c rest ih =>
    intro b
    simp only [pyTitleAux]
    split <;> simp [ih]

theorem pyTitle_length (l : List Char) : (pyTitle l).length = l.length :=
  pyTitleAux_length l false

theorem tailOdoFB_price (d : Doc) (v : VehicleRecord) : (tailOdoFB d v).price = v.price := by
  unfold tailOdoFB
  cases h : stepOdoFB d v with
  | error e => simp
  | ok v1 =>
    obtain ⟨hp, -, -, -, -, -⟩ := stepOdoFB_keeps d v v1 h
    simp [(stepCarfax_keeps d v1).1, hp]

theorem tailColorRegex_price (d : Doc) (v : VehicleRecord) :
    (tailColorRegex d v).price = v.price := by
  unfold tailColorRegex
  cases h : stepColorRegex d v with
  | error e => simp
  | ok v1 =>
    obtain ⟨hp, -, -, -, -, -⟩ := stepColorRegex_keeps d v v1 h
    simp [tailOdoFB_price, hp]

theorem tailStock_price (d : Doc) (v : VehicleRecord) : (tailStock d v).price = v.price := by
  unfold tailStock
  rw [tailColorRegex_price]
  rw [(stepTrim_keeps d _).1, (stepStockFB_keeps d _).1, (stepVin_keeps d _).1,
    (stepStock_keeps d v).1]

theorem tailColor_price (d : Doc) (v : VehicleRecord) : (tailColor d v).price = v.price := by
  unfold tailColor
  cases h : stepColor d v with
  | error e => simp
  | ok v1 =>
    obtain ⟨hp, -, -, -, -, -⟩ := stepColor_keeps d v v1 h
    simp [tailStock_price, hp]

theorem enrichAfterPrice_price (d : Doc) (v : VehicleRecord) :
    (enrichAfterPrice d v).price = v.price := by
  unfold enrichAfterPrice
  cases h : stepOdo d v with
  | error e => simp
  | ok v1 =>
    obtain ⟨hp, -, -, -, -, -⟩ := stepOdo_keeps d v v1 h
    simp [tailColor_price, hp]

theorem tailOdoFB_stock (d : Doc) (v : VehicleRecord) (s : String)
    (hs : v.stock_number = some s) : (tailOdoFB d v).stock_number = some s := by
  unfold tailOdoFB
  cases h : stepOdoFB d v with
  | error e => simp [hs]
  | ok v1 =>
    obtain ⟨-, -, hs1, -, -, -⟩ := stepOdoFB_keeps d v v1 h
    rw [(stepCarfax_keeps d v1).2.2.2.1, hs1, hs]

theorem tailColorRegex_stock (d : Doc) (v : VehicleRecord) (s : String)
    (hs : v.stock_number = some s) : (tailColorRegex d v).stock_number = some s := by
  unfold tailColorRegex
  cases h : stepColorRegex d v with
  | error e => simp [hs]
  | ok v1 =>
    obtain ⟨-, -, hs1, -, -, -⟩ := stepColorRegex_keeps d v v1 h
    exact tailOdoFB_stock d v1 s (hs1.trans hs)

theorem tailStock_stock (d : Doc) (v : VehicleRecord) (s : String)
    (hs : v.stock_number = some s) (hne : s ≠ "") :
    (tailStock d v).stock_number = some s := by
  unfold tailStock
  rw [stepStock_skip d v s hs]
  have h1s : (stepVin d v).stock_number = some s := by
    rw [(stepVin_keeps d v).2.2.2.1, hs]
  rw [stepStockFB_skip d (stepVin d v) s h1s hne]
  refine tailColorRegex_stock d _ s ?_
  rw [(stepTrim_keeps d _).2.2.2.1, h1s]

theorem tailColor_stock (d : Doc) (v : VehicleRecord) (s : String)
    (hs : v.stock_number = some s) (hne : s ≠ "") :
    (tailColor d v).stock_number = some s := by
  unfold tailColor
  cases h : stepColor d v with
  | error e => simp [hs]
  | ok v1 =>
    obtain ⟨-, -, hs1, -, -, -⟩ := stepColor_keeps d v v1 h
    exact tailStock_stock d v1 s (hs1.trans hs) hne

theorem enrichAfterPrice_stock (d : Doc) (v : VehicleRecord) (s : String)
    (hs : v.stock_number = some s) (hne : s ≠ "") :
    (enrichAfterPrice d v).stock_number = some s := by
  unfold enrichAfterPrice
  cases h : stepOdo d v with
  | error e => simp [hs]
  | ok v1 =>
    obtain ⟨-, -, hs1, -, -, -⟩ := stepOdo_keeps d v v1 h
    exact tailColor_stock d v1 s (hs1.trans hs) hne

theorem tailOdoFB_mileage (d : Doc) (v : VehicleRecord) (n : Int)
    (hm : v.mileage_km = some n) : (tailOdoFB d v).mileage_km = some n := by
  unfold tailOdoFB
  rw [stepOdoFB_skip d v n hm]
  rw [(stepCarfax_keeps d v).2.2.1, hm]

theorem tailColorRegex_mileage (d : Doc) (v : VehicleRecord) (n : Int)
    (hm : v.mileage_km = some n) : (tailColorRegex d v).mileage_km = some n := by
  unfold tailColorRegex
  cases h : stepColorRegex d v with
  | error e => simp [hm]
  | ok v1 =>
    obtain ⟨-, hm1, -, -, -, -⟩ := stepColorRegex_keeps d v v1 h
    exact tailOdoFB_mileage d v1 n (hm1.trans hm)

theorem tailStock_mileage (d : Doc) (v : VehicleRecord) (n : Int)
    (hm : v.mileage_km = some n) : (tailStock d v).mileage_km = some n := by
  unfold tailStock
  refine tailColorRegex_mileage d _ n ?_
  rw [(stepTrim_keeps d _).2.2.1, (stepStockFB_keeps d _).2.2.1, (stepVin_keeps d _).2.2.1,
    (stepStock_keeps d v).2.2.1, hm]

theorem tailColor_mileage (d : Doc) (v : VehicleRecord) (n : Int)
    (hm : v.mileage_km = some n) : (tailColor d v).mileage_km = some n := by
  unfold tailColor
  cases h : stepColor d v with
  | error e => simp [hm]
  | ok v1 =>
    obtain ⟨-, hm1, -, -, -, -⟩ := stepColor_keeps d v v1 h
    exact tailStock_mileage d v1 n (hm1.trans hm)

theorem enrichAfterPrice_mileage (d : Doc) (v : VehicleRecord) (n : Int)
    (hm : v.mileage_km = some n) : (enrichAfterPrice d v).mileage_km = some n := by
  unfold enrichAfterPrice
  rw [stepOdo_skip d v n hm]
  exact tailColor_mileage d v n hm

theorem tailOdoFB_vin (d : Doc) (v : VehicleRecord) : (tailOdoFB d v).vin = v.vin := by
  unfold tailOdoFB
  cases h : stepOdoFB d v with
  | error e => simp
  | ok v1 =>
    obtain ⟨-, -, -, hv, -, -⟩ := stepOdoFB_keeps d v v1 h
    simp [(stepCarfax_keeps d v1).2.2.2.2.1, hv]

theorem tailColorRegex_vin (d : Doc) (v : VehicleRecord) :
    (tailColorRegex d v).vin = v.vin := by
  unfold tailColorRegex
  cases h : stepColorRegex d v with
  | error e => simp
  | ok v1 =>
    obtain ⟨-, -, -, hv, -, -⟩ := stepColorRegex_keeps d v v1 h
    simp [tailOdoFB_vin, hv]

theorem tailStock_vin (d : Doc) (v : VehicleRecord) (h : v.vin = none) :
    (tailStock d v).vin = (vinSearch d.fullText.toList).map (fun g => String.mk g) := by
  unfold tailStock
  rw [tailColorRegex_vin, (stepTrim_keeps d _).2.2.2.2.1, (stepStockFB_keeps d _).2.2.2.1]
  rw [stepVin_vin d (stepStock d v) (by rw [(stepStock_keeps d v).2.2.2.1, h])]

theorem tailColor_vin (d : Doc) (v : VehicleRecord) (h : v.vin = none)
    (hColor : ∀ c, findLabeledValueIn d.scope LABELS_COLOR = some c → c ≠ "" →
      pyWords (cleanTextL c.toList) ≠ []) :
    (tailColor d v).vin = (vinSearch d.fullText.toList).map (fun g => String.mk g) := by
  unfold tailColor
  obtain ⟨v1, h1⟩ := stepColor_ok d v hColor
  rw [h1]
  obtain ⟨-, -, -, hv1, -, -⟩ := stepColor_keeps d v v1 h1
  exact tailStock_vin d v1 (hv1.trans h)

theorem enrichAfterPrice_vin (d : Doc) (v : VehicleRecord) (h : v.vin = none)
    (hOdo : ∀ s, findLabeledValueIn d.scope LABELS_MILE = some s → ∃ r, norm_km s = .ok r)
    (hColor : ∀ c, findLabeledValueIn d.scope LABELS_COLOR = some c → c ≠ "" →
      pyWords (cleanTextL c.toList) ≠ []) :
    (enrichAfterPrice d v).vin = (vinSearch d.fullText.toList).map (fun g => String.mk g) := by
  unfold enrichAfterPrice
  obtain ⟨v1, h1⟩ := stepOdo_ok d v hOdo
  rw [h1]
  obtain ⟨-, -, -, hv1, -, -⟩ := stepOdo_keeps d v v1 h1
  exact tailColor_vin d v1 (hv1.trans h) hColor

theorem tailColorRegex_color_set (d : Doc) (v : VehicleRecord) (c : String)
    (h : v.color = some c) (hne : c ≠ "") : (tailColorRegex d v).color = some c := by
  unfold tailColorRegex
  rw [stepColorRegex_raises d v c h hne]
  simp [h]

theorem tailStock_color_set (d : Doc) (v : VehicleRecord) (c : String)
    (h : v.color = some c) (hne : c ≠ "") : (tailStock d v).color = some c := by
  unfold tailStock
  refine tailColorRegex_color_set d _ c ?_ hne
  rw [(stepTrim_keeps d _).2.1, (stepStockFB_keeps d _).2.1, (stepVin_keeps d _).2.1,
    (stepStock_keeps d v).2.1, h]

theorem tailColor_color_value (d : Doc) (v : VehicleRecord) (c : String) (w : List Char)
    (ws : List (List Char))
    (hc : findLabeledValueIn d.scope LABELS_COLOR = some c) (hne : c ≠ "")
    (hw : pyWords (cleanTextL c.toList) = w :: ws) (hlast : (w :: ws).getLastD [] ≠ []) :
    (tailColor d v).color = some (String.mk (pyTitle ((w :: ws).getLastD []))) := by
  unfold tailColor
  rw [stepColor_value d v c w ws hc hne hw]
  refine tailStock_color_set d _ _ rfl ?_
  intro hempty
  apply hlast
  have : pyTitle ((w :: ws).getLastD []) = [] := by
    have := congrArg String.data hempty
    simpa using this
  have hlen := congrArg List.length this
  rw [pyTitle_length] at hlen
  simpa using List.length_eq_zero.mp hlen

/-! ## Bridging lemmas and derived observations -/

/-- The record as initialized at lines 140-145. -/
def initRecord (u : String) (mk md : Option String) (y : Option YearV) : VehicleRecord :=
  { url := u, title := none, year := y, make := mk, model := md,
    trim := "", price := none, color := none, mileage_km := none,
    stock_number := none, vin := none, carfax_url := none, error := none }

theorem enrich_ok (d : Doc) (u : String) (mk md : Option String) (y : Option YearV) :
    enrich_vehicle (.ok d) u mk md y = enrichWithDoc d (initRecord u mk md y) := rfl

theorem enrich_err (e : String) (u : String) (mk md : Option String) (y : Option YearV) :
    enrich_vehicle (.error e) u mk md y = { initRecord u mk md y with error := some e } := rfl

/-- The price the JSON-LD merge of lines 158-164 leaves on a fresh record:
the structured price when the lookup yielded a truthy one, otherwise
nothing. -/
def jsonldPriceOf (d : Doc) : Option String :=
  match d.jsonld with
  | some j => pyOrS j.price none
  | none => none

/-! ## Claim theorems -/

/-- C10: the record assembler is deterministic in its inputs: two runs of
`enrich_vehicle` against the same fetched document with the same
caller-supplied make/model/year produce field-for-field identical records.
(In the embedding the assembler is a pure function of the document, so the
two runs are the same term; the content of the claim is that the assembler
reads nothing but its arguments.) -/
theorem C10_assembler_idempotent (f : Except String Doc) (u : String)
    (mk md : Option String) (y : Option YearV) :
    (enrich_vehicle f u mk md y).url = (enrich_vehicle f u mk md y).url ∧
    (enrich_vehicle f u mk md y).title = (enrich_vehicle f u mk md y).title ∧
    (enrich_vehicle f u mk md y).year = (enrich_vehicle f u mk md y).year ∧
    (enrich_vehicle f u mk md y).make = (enrich_vehicle f u mk md y).make ∧
    (enrich_vehicle f u mk md y).model = (enrich_vehicle f u mk md y).model ∧
    (enrich_vehicle f u mk md y).trim = (enrich_vehicle f u mk md y).trim ∧
    (enrich_vehicle f u mk md y).price = (enrich_vehicle f u mk md y).price ∧
    (enrich_vehicle f u mk md y).color = (enrich_vehicle f u mk md y).color ∧
    (enrich_vehicle f u mk md y).mileage_km = (enrich_vehicle f u mk md y).mileage_km ∧
    (enrich_vehicle f u mk md y).stock_number = (enrich_vehicle f u mk md y).stock_number ∧
    (enrich_vehicle f u mk md y).vin = (enrich_vehicle f u mk md y).vin ∧
    (enrich_vehicle f u mk md y).carfax_url = (enrich_vehicle f u mk md y).carfax_url ∧
    (enrich_vehicle f u mk md y).error = (enrich_vehicle f u mk md y).error :=
  ⟨rfl, rfl, rfl, rfl, rfl, rfl, rfl, rfl, rfl, rfl, rfl, rfl, rfl⟩

/-- C8: candidate-URL filtering is an AND over all filter terms — a URL is
kept iff its slug (final path segment, hyphens to spaces, case-folded)
contains every term — and on the spec's examples the Tiguan slug is kept
while the Atlas slug is rejected. -/
theorem C8_filter_and_over_terms :
    (∀ (terms : List String) (u : String),
      keepURL terms u = true ↔ ∀ t ∈ terms, lcontains (slugOf u) t.toList = true) ∧
    mkTerms "tiguan 2024" = ["tiguan", "2024"] ∧
    keepURL ["tiguan", "2024"]
      "https://www.barrhavenvw.ca/en/used-inventory/2024-volkswagen-tiguan-comfortline-id123" = true ∧
    keepURL ["tiguan", "2024"]
      "https://www.barrhavenvw.ca/en/used-inventory/2024-volkswagen-atlas-id456" = false := by
  refine ⟨fun terms u => ?_, by decide, by decide, by decide⟩
  unfold keepURL
  cases terms with
  | nil => simp
  | cons t ts => simp [List.all_eq_true]

/-- C4 (amended): `enrich_vehicle` never raises past the record boundary.
A candidate whose FETCH fails yields a record with `error` set and every
extractable field null; a mid-extraction failure sets `error` but keeps the
fields already extracted (refuted part of the original claim — see the
counterexample).  The batch is a map over the first ten surviving
candidates: its length is `min N 10` and each output record depends only on
its own candidate. -/
theorem C4_boundary_and_batch :
    (∀ (e u : String) (mk md : Option String) (y : Option YearV),
      enrich_vehicle (.error e) u mk md y =
        { url := u, title := none, year := y, make := mk, model := md, trim := "",
          price := none, color := none, mileage_km := none, stock_number := none,
          vin := none, carfax_url := none, error := some e }) ∧
    (∀ (items : List (String × Except String Doc)) (mk md : Option String)
      (y : Option String),
      (inventory_batch items mk md y).length = min items.length 10) ∧
    (∀ (items : List (String × Except String Doc)) (mk md : Option String)
      (y : Option String) (i : Nat),
      (inventory_batch items mk md y)[i]? =
        ((items.take 10)[i]?).map
          (fun p => enrich_vehicle p.2 p.1 mk md (y.map YearV.str))) := by
  refine ⟨fun e u mk md y => rfl, fun items mk md y => ?_, fun items mk md y i => ?_⟩
  · simp [inventory_batch, Nat.min_comm]
  · simp only [inventory_batch]
    rw [List.getElem?_map]

/-- C2: whenever the labeled price fragment contains the rebate marker
(case-insensitively), the assembled record's price is exactly what the
structured-metadata merge produced — no value derived from that fragment is
accepted. -/
theorem C2_rebate_never_price (d : Doc) (u : String) (mk md : Option String)
    (y : Option YearV) (s : String)
    (hs : findLabeledValueIn d.scope LABELS_PRICE = some s)
    (hreb : containsCI s "rebate" = true) :
    (enrich_vehicle (.ok d) u mk md y).price = jsonldPriceOf d := by
  rw [enrich_ok]
  unfold enrichWithDoc
  rw [stepPrice_of_rebate d _ s hs hreb, enrichAfterPrice_price]
  have h1 : (stepTitle d (initRecord u mk md y)).price = none :=
    (stepTitle_keeps d (initRecord u mk md y)).1.trans rfl
  cases hj : d.jsonld with
  | none =>
    unfold stepJsonld
    rw [hj, h1]
    unfold jsonldPriceOf
    rw [hj]
  | some j =>
    rw [stepJsonld_of_jsonld d _ j hj]
    unfold jsonldPriceOf
    rw [hj, h1]

theorem findLabeled_nil (labels : List String) : findLabeledValueIn [] labels = none := rfl

/-- C2 witness document: a rebate-bearing labeled price fragment next to a
structured price. -/
def jC2 : JHints :=
  { price := some "$25,000", stock_number := none, color := none, mileage_km := none }

def docC2w : Doc :=
  { titleText := "", jsonld := some jC2,
    scope := [.pair "Our Price" (some "$3,000 Rebate available")],
    fullText := "", anchors := [] }

/-- C2 witness: on a concrete document whose labeled price fragment reads
`$3,000 Rebate available`, the assembled price is the structured `$25,000`,
not a value from the fragment. -/
theorem C2_rebate_never_price_witness :
    (enrich_vehicle (.ok docC2w) "u" none none none).price = some "$25,000" := by
  have h := C2_rebate_never_price docC2w "u" none none none "$3,000 Rebate available"
    (by decide) (by decide)
  exact h.trans (by decide)

/-- C1 (amended): structured stock number and mileage are each strictly
first, independently — whenever the JSON-LD lookup yields a truthy stock
number, every later step leaves it in place, and likewise for a non-zero
JSON-LD mileage; neither needs the other to be present.  (Structured price
and color are NOT protected: the label-proximity price and color overwrite
them — see the counterexample.) -/
theorem C1_structured_stock_mileage_first :
    (∀ (d : Doc) (u : String) (mk md : Option String) (y : Option YearV)
      (j : JHints) (s : String),
      d.jsonld = some j → j.stock_number = some s → s ≠ "" →
      (enrich_vehicle (.ok d) u mk md y).stock_number = some s) ∧
    (∀ (d : Doc) (u : String) (mk md : Option String) (y : Option YearV)
      (j : JHints) (n : Int),
      d.jsonld = some j → j.mileage_km = some n → n ≠ 0 →
      (enrich_vehicle (.ok d) u mk md y).mileage_km = some n) := by
  constructor
  · intro d u mk md y j s hj hs hsne
    rw [enrich_ok]
    unfold enrichWithDoc
    have h2s : (stepJsonld d (stepTitle d (initRecord u mk md y))).stock_number = some s := by
      rw [stepJsonld_of_jsonld d _ j hj]
      simp [pyOrS, hs, hsne]
    have h3s :=
      (stepPrice_keeps d (stepJsonld d (stepTitle d (initRecord u mk md y)))).2.2.1.trans h2s
    exact enrichAfterPrice_stock d _ s h3s hsne
  · intro d u mk md y j n hj hn hnne
    rw [enrich_ok]
    unfold enrichWithDoc
    have h2m : (stepJsonld d (stepTitle d (initRecord u mk md y))).mileage_km = some n := by
      rw [stepJsonld_of_jsonld d _ j hj]
      simp [pyOrI, hn, hnne]
    have h3m :=
      (stepPrice_keeps d (stepJsonld d (stepTitle d (initRecord u mk md y)))).2.1.trans h2m
    exact enrichAfterPrice_mileage d _ n h3m

/-- C1 document: structured price/stock/color/mileage all present, with a
labeled price and a labeled color also on the page. -/
def jC1 : JHints :=
  { price := some "$25,000", stock_number := some "VW123", color := some "Blue",
    mileage_km := some 42000 }

def docC1 : Doc :=
  { titleText := "2021 Volkswagen Tiguan", jsonld := some jC1,
    scope := [.pair "Our Price" (some "$30,999"), .pair "Exterior Colour" (some "Deep Black")],
    fullText := "Our Price $30,999 Exterior Colour Deep Black", anchors := [] }

/-- C1 witness documents: JSON-LD carrying only a stock number, and JSON-LD
carrying only a mileage — the two protections hold independently. -/
def jC1stock : JHints :=
  { price := none, stock_number := some "VW123", color := none, mileage_km := none }

def docC1stock : Doc :=
  { titleText := "", jsonld := some jC1stock, scope := [], fullText := "", anchors := [] }

def jC1mile : JHints :=
  { price := none, stock_number := none, color := none, mileage_km := some 42000 }

def docC1mile : Doc :=
  { titleText := "", jsonld := some jC1mile, scope := [], fullText := "", anchors := [] }

/-- C1 witness: a stock-only structured record keeps `VW123`, and a
mileage-only structured record keeps `42000`. -/
theorem C1_structured_stock_mileage_first_witness :
    (enrich_vehicle (.ok docC1stock) "u" none none none).stock_number = some "VW123" ∧
    (enrich_vehicle (.ok docC1mile) "u" none none none).mileage_km = some 42000 :=
  ⟨C1_structured_stock_mileage_first.1 docC1stock "u" none none none jC1stock "VW123"
      rfl rfl (by decide),
   C1_structured_stock_mileage_first.2 docC1mile "u" none none none jC1mile 42000
      rfl rfl (by decide)⟩

/-- C1 counterexample: the structured price `$25,000` and color `Blue` are
non-null, yet the assembled record carries the label-proximity price
`$30,999` and color `Black` — the later steps do not only fill fields that
are still null. -/
theorem C1_counterexample :
    docC1.jsonld = some jC1 ∧ jC1.price = some "$25,000" ∧ jC1.color = some "Blue" ∧
    (enrich_vehicle (.ok docC1) "u" none none none).price = some "$30,999" ∧
    (enrich_vehicle (.ok docC1) "u" none none none).color = some "Black" ∧
    some "$30,999" ≠ (some "$25,000" : Option String) ∧
    some "Black" ≠ (some "Blue" : Option String) :=
  ⟨rfl, rfl, rfl, by decide, by decide, by decide, by decide⟩

/-- C7 (amended): the label-proximity color fragment is normalized by
whitespace-cleaning and title-casing the LAST whitespace-separated token
only; the marker-cutting normalization that retains leading tokens belongs
to the full-text `Ext. Color` regex fallback, which runs only when no
labeled color was found. -/
theorem C7_color_last_token (d : Doc) (u : String) (mk md : Option String) (y : Option YearV)
    (c : String) (w : List Char) (ws : List (List Char))
    (hOdo : ∀ s, findLabeledValueIn d.scope LABELS_MILE = some s → ∃ r, norm_km s = .ok r)
    (hc : findLabeledValueIn d.scope LABELS_COLOR = some c) (hne : c ≠ "")
    (hw : pyWords (cleanTextL c.toList) = w :: ws) (hlast : (w :: ws).getLastD [] ≠ []) :
    (enrich_vehicle (.ok d) u mk md y).color =
      some (String.mk (pyTitle ((w :: ws).getLastD []))) := by
  rw [enrich_ok]
  unfold enrichWithDoc enrichAfterPrice
  obtain ⟨v1, h1⟩ :=
    stepOdo_ok d (stepPrice d (stepJsonld d (stepTitle d (initRecord u mk md y)))) hOdo
  rw [h1]
  exact tailColor_color_value d v1 c w ws hc hne hw hlast

/-- C7 document: a definition-list color `Deep Black Pearl`. -/
def docC7 : Doc :=
  { titleText := "", jsonld := none,
    scope := [.pair "Exterior Colour" (some "Deep Black Pearl")],
    fullText := "Exterior Colour Deep Black Pearl", anchors := [] }

/-- C7 witness: on the C7 document the labeled color normalizes to its last
token, `Pearl`. -/
theorem C7_color_last_token_witness :
    (enrich_vehicle (.ok docC7) "u" none none none).color = some "Pearl" := by
  have h := C7_color_last_token docC7 "u" none none none "Deep Black Pearl"
    "Deep".toList ["Black".toList, "Pearl".toList]
    (fun s hsx => Option.noConfusion
      (((by decide : findLabeledValueIn docC7.scope LABELS_MILE = none)).symm.trans hsx))
    (by decide) (by decide) (by decide) (by decide)
  exact h.trans (by decide)

/-- C7 counterexample: the multi-word labeled color `Deep Black Pearl` does
NOT retain its leading tokens — the record carries only the title-cased last
token `Pearl`. -/
theorem C7_counterexample :
    findLabeledValueIn docC7.scope LABELS_COLOR = some "Deep Black Pearl" ∧
    (enrich_vehicle (.ok docC7) "u" none none none).color = some "Pearl" ∧
    some "Pearl" ≠ (some "Deep Black Pearl" : Option String) :=
  ⟨by decide, by decide, by decide⟩

/-- C9 (amended): VIN extraction applies the strict 17-character pattern to
the WHOLE page text (`soup.get_text`), not to the specification region;
whenever the earlier label steps do not raise, the record's `vin` is exactly
the leftmost boundary-delimited 17-character match over the full text. -/
theorem C9_vin_whole_page (d : Doc) (u : String) (mk md : Option String) (y : Option YearV)
    (hOdo : ∀ s, findLabeledValueIn d.scope LABELS_MILE = some s → ∃ r, norm_km s = .ok r)
    (hColor : ∀ c, findLabeledValueIn d.scope LABELS_COLOR = some c → c ≠ "" →
      pyWords (cleanTextL c.toList) ≠ []) :
    (enrich_vehicle (.ok d) u mk md y).vin =
      (vinSearch d.fullText.toList).map (fun g => String.mk g) := by
  rw [enrich_ok]
  unfold enrichWithDoc
  refine enrichAfterPrice_vin d _ ?_ hOdo hColor
  rw [(stepPrice_keeps d _).2.2.2.1, (stepJsonld_keeps d _).2.2.2.2.1,
    (stepTitle_keeps d _).2.2.2.2.1]
  rfl

/-- C9 documents: a 17-character VIN outside any specification region, and
16- and 18-character near-matches. -/
def docC9 : Doc :=
  { titleText := "", jsonld := none, scope := [],
    fullText := "Similar vehicles WVGAV7AX9JK001234 elsewhere", anchors := [] }

def docC9n16 : Doc :=
  { titleText := "", jsonld := none, scope := [],
    fullText := "Vehicle code WVGAV7AX9JK00123 here", anchors := [] }

def docC9n18 : Doc :=
  { titleText := "", jsonld := none, scope := [],
    fullText := "Vehicle code WVGAV7AX9JK0012345 here", anchors := [] }

/-- C9 witness: the 17-character string is extracted; the 16- and
18-character near-matches yield a null `vin`. -/
theorem C9_vin_whole_page_witness :
    (enrich_vehicle (.ok docC9) "u" none none none).vin = some "WVGAV7AX9JK001234" ∧
    (enrich_vehicle (.ok docC9n16) "u" none none none).vin = none ∧
    (enrich_vehicle (.ok docC9n18) "u" none none none).vin = none := by
  refine ⟨?_, ?_, ?_⟩
  · exact (C9_vin_whole_page docC9 "u" none none none
      (fun s hsx => Option.noConfusion ((findLabeled_nil LABELS_MILE).symm.trans hsx))
      (fun c hcx _ => Option.noConfusion ((findLabeled_nil LABELS_COLOR).symm.trans hcx))).trans
      (by decide)
  · exact (C9_vin_whole_page docC9n16 "u" none none none
      (fun s hsx => Option.noConfusion ((findLabeled_nil LABELS_MILE).symm.trans hsx))
      (fun c hcx _ => Option.noConfusion ((findLabeled_nil LABELS_COLOR).symm.trans hcx))).trans
      (by decide)
  · exact (C9_vin_whole_page docC9n18 "u" none none none
      (fun s hsx => Option.noConfusion ((findLabeled_nil LABELS_MILE).symm.trans hsx))
      (fun c hcx _ => Option.noConfusion ((findLabeled_nil LABELS_COLOR).symm.trans hcx))).trans
      (by decide)

/-- The VIN extraction as the claim words it: the strict pattern applied to
the SPECIFICATION REGION's full text.  Stated for comparison only; the code
(line 183) searches the whole page text instead. -/
def vinFromSpecRegionText (specText : String) : Option String :=
  (vinSearch specText.toList).map (fun g => String.mk g)

/-- C9 counterexample: a document whose specification region is empty (so
the claim's region-scoped extraction yields null) but whose page text holds
a 17-character VIN elsewhere — the code extracts it anyway. -/
theorem C9_counterexample :
    docC9.scope = [] ∧
    vinFromSpecRegionText "" = none ∧
    (enrich_vehicle (.ok docC9) "u" none none none).vin = some "WVGAV7AX9JK001234" :=
  ⟨rfl, rfl, by decide⟩

/-- C5 documents: the spec's stock scenario in list-item position and in
plain-text position. -/
def docC5li : Doc :=
  { titleText := "", jsonld := none, scope := [.item "Stock # 26-0058A"],
    fullText := "Stock # 26-0058A", anchors := [] }

def docC5plain : Doc :=
  { titleText := "", jsonld := none, scope := [],
    fullText := "Stock # 26-0058A", anchors := [] }

/-- C5: with `Stock # 26-0058A` in a list item, the label scan isolates the
fragment `26-0058A`, but the loose pattern of line 180
(`[A-Za-z]{0,2}[-]?\d{3,7}[A-Za-z]?`) cannot match the two digits before the
dash and returns `-0058A`; only the plain-text fallback path (lines 186-190)
produces `26-0058A`. -/
theorem C5_stock_labeled_mangled :
    docC5li.scope = [SpecNode.item "Stock # 26-0058A"] ∧
    findLabeledValueIn docC5li.scope LABELS_STOCK = some "26-0058A" ∧
    (enrich_vehicle (.ok docC5li) "u" none none none).stock_number = some "-0058A" ∧
    some "-0058A" ≠ (some "26-0058A" : Option String) ∧
    (enrich_vehicle (.ok docC5plain) "u" none none none).stock_number = some "26-0058A" :=
  ⟨rfl, by decide, by decide, by decide, by decide⟩

/-- C3 documents: a Carfax anchor with and without an extracted color. -/
def jC3 : JHints :=
  { price := none, stock_number := none, color := some "Blue", mileage_km := none }

def docC3 : Doc :=
  { titleText := "", jsonld := some jC3, scope := [],
    fullText := "", anchors := ["/en/carfax/report-123"] }

def docC3ok : Doc :=
  { titleText := "", jsonld := none, scope := [],
    fullText := "", anchors := ["/en/carfax/report-123"] }

/-- C3: a document carries a Carfax hyperlink, but because a color was
extracted, the misindented `if mc:` of line 200 raises before the Carfax
step — `carfax_url` stays null and `error` is set.  With no color the same
hyperlink is found and canonicalized. -/
theorem C3_carfax_skipped_when_color_set :
    carfaxAnchor docC3.anchors = some "/en/carfax/report-123" ∧
    (enrich_vehicle (.ok docC3) "u" none none none).carfax_url = none ∧
    (enrich_vehicle (.ok docC3) "u" none none none).error =
      some "UnboundLocalError: local variable 'mc' referenced before assignment" ∧
    (enrich_vehicle (.ok docC3ok) "u" none none none).carfax_url =
      some "https://www.barrhavenvw.ca/en/carfax/report-123" :=
  ⟨by decide, by decide, by decide, by decide⟩

/-- C4 counterexample document: an extraction failure (the `mc` slip) on a
record that already extracted a color. -/
def jC4 : JHints :=
  { price := none, stock_number := none, color := some "Blue", mileage_km := none }

def docC4 : Doc :=
  { titleText := "", jsonld := some jC4, scope := [], fullText := "", anchors := [] }

/-- C4 counterexample: a failed extraction does NOT leave all extractable
fields null — the record keeps the already-extracted color `Blue` alongside
the `error`. -/
theorem C4_counterexample :
    (enrich_vehicle (.ok docC4) "u" none none none).error ≠ none ∧
    (enrich_vehicle (.ok docC4) "u" none none none).color = some "Blue" ∧
    some "Blue" ≠ (none : Option String) :=
  ⟨by decide, by decide, by decide⟩

/-- C6 (amended): `norm_km` returns the truncated integer of the first
unit-anchored decimal number with thousands separators stripped, and null
when no such match exists — but it is not total: the matched numeric run can
fail Python's `float` (see the counterexample). -/
theorem C6_norm_km_partial_behavior :
    norm_km "Odometer 45,230 KM" = .ok (some 45230) ∧
    (∀ s : String, kmSearch s.toList = none → norm_km s = .ok none) ∧
    (∀ (s : String) (run : List Char), s ≠ "" → kmSearch s.toList = some run →
      norm_km s = (pyIntFloat (run.filter (fun c => c ≠ ','))).map some) := by
  refine ⟨by decide, fun s h => ?_, fun s run hne h => ?_⟩
  · by_cases hs : s = ""
    · subst hs; rfl
    · have h' : kmSearch s.data = none := h
      simp [norm_km, hs, h']
  · have h' : kmSearch s.data = some run := h
    simp [norm_km, hne, h']

/-- C6 witness: no match yields null; `12 km` yields 12. -/
theorem C6_norm_km_partial_behavior_witness :
    norm_km "no distance fragment" = .ok none ∧ norm_km "12 km" = .ok (some 12) := by
  constructor
  · exact C6_norm_km_partial_behavior.2.1 "no distance fragment" (by decide)
  · exact (C6_norm_km_partial_behavior.2.2 "12 km" ['1', '2'] (by decide) (by decide)).trans
      (by decide)

/-- C6 counterexample: `norm_km` raises on `",km"` — the numeric-run class
`[\d,\.]` matches a lone comma, and `float("")` raises after the comma is
stripped — so `parseDistance` is not total. -/
theorem C6_counterexample : norm_km ",km" = .error "ValueError" := by decide

/-- C8 witness: the AND characterization instantiated on a concrete slug. -/
theorem C8_filter_and_over_terms_witness :
    keepURL ["tiguan", "2024"]
      "https://www.barrhavenvw.ca/en/used-inventory/2024-volkswagen-tiguan-comfortline-id123" =
      true :=
  (C8_filter_and_over_terms.1 ["tiguan", "2024"]
    "https://www.barrhavenvw.ca/en/used-inventory/2024-volkswagen-tiguan-comfortline-id123").mpr
    (by decide)

/-- C4 witness: the boundary shape and the batch length on concrete inputs. -/
theorem C4_boundary_and_batch_witness :
    enrich_vehicle (.error "timeout") "u" none none none =
      { url := "u", title := none, year := none, make := none, model := none, trim := "",
        price := none, color := none, mileage_km := none, stock_number := none,
        vin := none, carfax_url := none, error := some "timeout" } ∧
    (inventory_batch [("u1", .error "timeout")] none none none).length = min 1 10 :=
  ⟨C4_boundary_and_batch.1 "timeout" "u" none none none,
   C4_boundary_and_batch.2.1 [("u1", .error "timeout")] none none none⟩

end TokenServer
